import Mathlib

/-
Verification of the slot/time/availability arithmetic of the reservations-web
front end (ReservationCalendar and ReservationManagement components).

The operating day is divided into 40 fifteen-minute slots, indexed 0–39,
covering wall-clock 18:00 through 27:45 (hours ≥ 24 are displayed wrapped
below 24).  The definitions below are shallow embeddings of the TypeScript
functions: `generateTimeSlots`, `calculateMaxBookableSeats` and
`convertTimeToSlot` from the calendar component, the slot → time display
formula from the reservation-management component, and the availability-row
construction of `fetchAvailability` / `initializeSchedule`.  JavaScript
numbers that can only hold small non-negative integers on the relevant paths
are modelled as `Nat`; backend-reported seat counts are modelled as `Int`
(the code makes no assumption that they are non-negative).
-/

/-- Embeds `n.toString().padStart(2, '0')` on a natural number. -/
def pad2 (n : Nat) : String :=
  let s := Nat.repr n
  if s.length < 2 then "0" ++ s else s

/-- The `timeString` built inside `generateTimeSlots`:
`displayHour = hour >= 24 ? hour - 24 : hour`, both components zero-padded
to two digits and joined with ":". -/
def timeStringOf (hour minute : Nat) : String :=
  let displayHour := if hour ≥ 24 then hour - 24 else hour
  pad2 displayHour ++ ":" ++ pad2 minute

/-- Embeds `generateTimeSlots`: hours 18..27, minutes 0,15,30,45, with the
inner loop breaking at hour 27 once minute exceeds 45 (the `takeWhile`
mirrors the `break`; it never fires because minutes stop at 45). -/
def generateTimeSlots : List String :=
  ((List.range' 18 10).map (fun hour =>
    (([0, 15, 30, 45].takeWhile (fun minute => ¬(hour = 27 ∧ minute > 45))).map
      (fun minute => timeStringOf hour minute)))).flatten

/-- `Number(s)` on a string of decimal digits, as applied to the two parts of
`time.split(':')`. -/
def parseNatChars (cs : List Char) : Nat :=
  cs.foldl (fun a c => a * 10 + (c.toNat - 48)) 0

/-- Embeds `convertTimeToSlot`: split the string at ":", parse hour and
minute, add 24 to hours below 18 (times past midnight), then
`(adjustedHours - 18) * 4 + minutes / 15`.  On quarter-hour inputs the
minute division is exact, so `Nat` division agrees with the JS number
division. -/
def convertTimeToSlot (time : String) : Nat :=
  let cs := time.data
  let hours := parseNatChars (cs.takeWhile (fun c => c ≠ ':'))
  let minutes := parseNatChars ((cs.dropWhile (fun c => c ≠ ':')).drop 1)
  let adjustedHours := if hours < 18 then hours + 24 else hours
  (adjustedHours - 18) * 4 + minutes / 15

/-- Embeds the slot → display-time formula of the reservation-management
list: `startHour = timeSlot / 4 + 18`, `startMin = (timeSlot % 4) * 15`,
hours ≥ 24 wrapped, both parts zero-padded. -/
def slotToTime (timeSlot : Nat) : String :=
  let startHour := timeSlot / 4 + 18
  let startMin := (timeSlot % 4) * 15
  let displayHour := if startHour ≥ 24 then startHour - 24 else startHour
  pad2 displayHour ++ ":" ++ pad2 startMin

/-- A backend availability entry as consumed by `calculateMaxBookableSeats`
(the fields of `dayData.availableSlots` elements that the code reads). -/
structure AvailableSlot where
  slot : Nat
  availableSeats : Int

/-- The occupied-slot set computed by `calculateMaxBookableSeats`: for
`startSlot ≤ 27`, the 12 slots `startSlot + i` (i < 12) kept only while
`≤ 39`; otherwise every slot from `startSlot` up to 39. -/
def occupiedSlots (startSlot : Nat) : List Nat :=
  if startSlot ≤ 27 then
    ((List.range 12).map (fun i => startSlot + i)).filter (fun slot => slot ≤ 39)
  else
    List.range' startSlot (40 - startSlot)

/-- The seat-minimising loop of `calculateMaxBookableSeats`: walk the
occupied slots, intersecting the running minimum with each slot's reported
`availableSeats`, and return 0 as soon as a slot has no entry. -/
def seatsLoop (availableSlots : List AvailableSlot) : List Nat → Int → Int
  | [], minAvailableSeats => minAvailableSeats
  | slot :: rest, minAvailableSeats =>
    match availableSlots.find? (fun s => s.slot == slot) with
    | some slotData => seatsLoop availableSlots rest (min minAvailableSeats slotData.availableSeats)
    | none => 0

/-- Embeds `calculateMaxBookableSeats`: the running minimum starts at the
seat capacity 6. -/
def calculateMaxBookableSeats (startSlot : Nat) (availableSlots : List AvailableSlot) : Int :=
  seatsLoop availableSlots (occupiedSlots startSlot) 6

/-- The seat count the loop reads for one occupied slot: the `availableSeats`
field of the first matching entry (0 is a dummy for the absent case, which
claim C1 excludes by hypothesis). -/
def lookupSeatValue (availableSlots : List AvailableSlot) (slot : Nat) : Int :=
  ((availableSlots.find? (fun s => s.slot == slot)).map AvailableSlot.availableSeats).getD 0

/-- The list of seat counts over the occupied-slot set of `startSlot`. -/
def seatValues (startSlot : Nat) (availableSlots : List AvailableSlot) : List Int :=
  (occupiedSlots startSlot).map (lookupSeatValue availableSlots)

/-- C3: the occupied-slot set is the 12 consecutive slots from `startSlot`
(clipping at 39 is vacuous for `startSlot ≤ 27`) and, past 27, the slots
from `startSlot` to 39; in particular `[30..39]` for 30 and `{39}` for 39. -/
theorem occupiedSlots_window :
    (∀ s : Fin 40, occupiedSlots s.val =
      if s.val ≤ 27 then List.range' s.val 12 else List.range' s.val (40 - s.val)) ∧
    occupiedSlots 30 = [30, 31, 32, 33, 34, 35, 36, 37, 38, 39] ∧
    occupiedSlots 39 = [39] := by
  decide

/-- C4: converting any generated time label to a slot index and back to a
display string is the identity on the 40 labels of the operating window. -/
theorem slotToTime_convertTimeToSlot_roundTrip :
    ∀ t ∈ generateTimeSlots, slotToTime (convertTimeToSlot t) = t := by
  decide

/-- Witness for C4 at the concrete label "18:00". -/
theorem slotToTime_convertTimeToSlot_roundTrip_witness :
    "18:00" ∈ generateTimeSlots ∧ slotToTime (convertTimeToSlot "18:00") = "18:00" :=
  ⟨by decide, slotToTime_convertTimeToSlot_roundTrip "18:00" (by decide)⟩

/-- C7: the three anchor conversions — opening time 18:00 is slot 0, last
slot 27:45 is slot 39, and midnight 00:00 wraps (24 added) to slot 24. -/
theorem convertTimeToSlot_anchors :
    convertTimeToSlot "18:00" = 0 ∧ convertTimeToSlot "27:45" = 39 ∧
    convertTimeToSlot "00:00" = 24 := by
  decide

/-- C9: `convertTimeToSlot` applied to the i-th generated time label yields
exactly i, so the `timeSlot` submitted for a clicked grid row is that row's
index. -/
theorem convertTimeToSlot_of_generated_index :
    ∀ i : Fin 40, convertTimeToSlot (generateTimeSlots.getD i.val "") = i.val := by
  decide

/-- The running minimum of `seatsLoop` never ends above its nonnegative
start: the loop only lowers the accumulator or bails out with 0. -/
theorem seatsLoop_le (availableSlots : List AvailableSlot) (l : List Nat) :
    ∀ acc : Int, seatsLoop availableSlots l acc ≤ max acc 0 := by
  induction l with
  | nil => intro acc; simp [seatsLoop]
  | cons slot rest ih =>
    intro acc
    simp only [seatsLoop]
    cases hfind : availableSlots.find? (fun s => s.slot == slot) with
    | none => simp
    | some slotData =>
      exact le_trans (ih _) (max_le_max (min_le_left _ _) le_rfl)

/-- If some slot of the walked list has no entry, `seatsLoop` returns 0. -/
theorem seatsLoop_eq_zero (availableSlots : List AvailableSlot) (l : List Nat) :
    ∀ acc : Int,
      (∃ s ∈ l, (availableSlots.find? (fun e => e.slot == s)).isNone = true) →
      seatsLoop availableSlots l acc = 0 := by
  induction l with
  | nil => intro acc h; simp at h
  | cons slot rest ih =>
    intro acc h
    simp only [seatsLoop]
    cases hfind : availableSlots.find? (fun s => s.slot == slot) with
    | none => rfl
    | some slotData =>
      apply ih
      rcases h with ⟨s, hs, hnone⟩
      rcases List.mem_cons.mp hs with heq | hmem
      · subst heq; rw [hfind] at hnone; simp at hnone
      · exact ⟨s, hmem, hnone⟩

/-- When every walked slot has an entry, `seatsLoop` is the left fold of
`min` over the looked-up seat values. -/
theorem seatsLoop_eq_foldl (availableSlots : List AvailableSlot) (l : List Nat) :
    ∀ acc : Int,
      (∀ s ∈ l, (availableSlots.find? (fun e => e.slot == s)).isSome = true) →
      seatsLoop availableSlots l acc
        = (l.map (lookupSeatValue availableSlots)).foldl min acc := by
  induction l with
  | nil => intro acc _; rfl
  | cons slot rest ih =>
    intro acc h
    simp only [seatsLoop, List.map_cons, List.foldl_cons]
    cases hfind : availableSlots.find? (fun s => s.slot == slot) with
    | none =>
      have hmem := h slot (List.mem_cons_self slot rest)
      rw [hfind] at hmem
      simp at hmem
    | some slotData =>
      have hval : lookupSeatValue availableSlots slot = slotData.availableSeats := by
        simp [lookupSeatValue, hfind]
      rw [hval]
      exact ih _ (fun s hs => h s (List.mem_cons_of_mem _ hs))

/-- A fold of `min` never exceeds its starting value. -/
theorem foldl_min_le_init (l : List Int) : ∀ a : Int, l.foldl min a ≤ a := by
  induction l with
  | nil => intro a; simp
  | cons x xs ih => intro a; exact le_trans (ih (min a x)) (min_le_left a x)

/-- A fold of `min` is a lower bound of every list element. -/
theorem foldl_min_le_mem (l : List Int) :
    ∀ (a v : Int), v ∈ l → l.foldl min a ≤ v := by
  induction l with
  | nil => intro a v hv; simp at hv
  | cons x xs ih =>
    intro a v hv
    rcases List.mem_cons.mp hv with heq | hmem
    · subst heq
      exact le_trans (foldl_min_le_init xs (min a v)) (min_le_right a v)
    · exact ih (min a x) v hmem

/-- A fold of `min` is attained: it is the starting value or a list element. -/
theorem foldl_min_attained (l : List Int) :
    ∀ a : Int, l.foldl min a = a ∨ l.foldl min a ∈ l := by
  induction l with
  | nil => intro a; left; rfl
  | cons x xs ih =>
    intro a
    rcases ih (min a x) with h | h
    · rcases min_choice a x with hmin | hmin
      · left; rw [List.foldl_cons, h, hmin]
      · right; rw [List.foldl_cons, h, hmin]; exact List.mem_cons_self x xs
    · right; exact List.mem_cons_of_mem x h

/-- A start slot in range occupies itself. -/
theorem self_mem_occupiedSlots (startSlot : Nat) (hs : startSlot ≤ 39) :
    startSlot ∈ occupiedSlots startSlot := by
  unfold occupiedSlots
  by_cases h : startSlot ≤ 27
  · rw [if_pos h]
    refine List.mem_filter.mpr ⟨List.mem_map.mpr ⟨0, ?_, ?_⟩, ?_⟩
    · exact List.mem_range.mpr (by omega)
    · omega
    · exact decide_eq_true hs
  · rw [if_neg h]
    exact List.mem_range'.mpr ⟨0, by omega, by omega⟩

/-- C10: the result of `calculateMaxBookableSeats` never exceeds the seat
capacity 6, whatever the backend reports, because the running minimum starts
at 6. -/
theorem calculateMaxBookableSeats_le_six (startSlot : Nat)
    (availableSlots : List AvailableSlot) :
    calculateMaxBookableSeats startSlot availableSlots ≤ 6 := by
  have h := seatsLoop_le availableSlots (occupiedSlots startSlot) 6
  simpa [calculateMaxBookableSeats] using h

/-- C2: if any slot of the occupied window has no entry in the availability
list, the start slot yields 0 bookable seats, whatever the listed values. -/
theorem calculateMaxBookableSeats_missing (startSlot : Nat)
    (availableSlots : List AvailableSlot) (_hs : startSlot ≤ 39)
    (h : ∃ s ∈ occupiedSlots startSlot,
      (availableSlots.find? (fun e => e.slot == s)).isNone = true) :
    calculateMaxBookableSeats startSlot availableSlots = 0 :=
  seatsLoop_eq_zero availableSlots (occupiedSlots startSlot) 6 h

/-- Witness for C2: start slot 39 with an empty availability list. -/
theorem calculateMaxBookableSeats_missing_witness :
    (∃ s ∈ occupiedSlots 39,
      ((([] : List AvailableSlot).find? (fun e => e.slot == s)).isNone = true)) ∧
    calculateMaxBookableSeats 39 [] = 0 :=
  ⟨by decide, calculateMaxBookableSeats_missing 39 [] (by decide) (by decide)⟩

/-- C1: when every slot of the occupied window is listed with a seat value
in [0, 6], the result is the minimum listed seat value over the window: it
is one of the window's seat values and a lower bound of all of them. -/
theorem calculateMaxBookableSeats_eq_min (startSlot : Nat)
    (availableSlots : List AvailableSlot) (hs : startSlot ≤ 39)
    (hpresent : ∀ s ∈ occupiedSlots startSlot,
      (availableSlots.find? (fun e => e.slot == s)).isSome = true)
    (hrange : ∀ s ∈ occupiedSlots startSlot,
      0 ≤ lookupSeatValue availableSlots s ∧ lookupSeatValue availableSlots s ≤ 6) :
    calculateMaxBookableSeats startSlot availableSlots
        ∈ seatValues startSlot availableSlots ∧
    ∀ v ∈ seatValues startSlot availableSlots,
      calculateMaxBookableSeats startSlot availableSlots ≤ v := by
  have hfold : calculateMaxBookableSeats startSlot availableSlots
      = (seatValues startSlot availableSlots).foldl min 6 :=
    seatsLoop_eq_foldl availableSlots (occupiedSlots startSlot) 6 hpresent
  constructor
  · rcases foldl_min_attained (seatValues startSlot availableSlots) 6 with h6 | hmem
    · have hself := self_mem_occupiedSlots startSlot hs
      have hv0 : lookupSeatValue availableSlots startSlot
          ∈ seatValues startSlot availableSlots :=
        List.mem_map_of_mem _ hself
      have hle : (seatValues startSlot availableSlots).foldl min 6
          ≤ lookupSeatValue availableSlots startSlot :=
        foldl_min_le_mem _ 6 _ hv0
      have hv6 : lookupSeatValue availableSlots startSlot = 6 :=
        le_antisymm (hrange startSlot hself).2 (h6 ▸ hle)
      rw [hfold, h6, ← hv6]
      exact hv0
    · rw [hfold]; exact hmem
  · intro v hv
    rw [hfold]
    exact foldl_min_le_mem _ 6 v hv

/-- The spec's worked example: slots 0–11 listed, slot 11 with 2 seats, all
others with 6. -/
def exampleAvailability : List AvailableSlot :=
  [⟨0, 6⟩, ⟨1, 6⟩, ⟨2, 6⟩, ⟨3, 6⟩, ⟨4, 6⟩, ⟨5, 6⟩,
   ⟨6, 6⟩, ⟨7, 6⟩, ⟨8, 6⟩, ⟨9, 6⟩, ⟨10, 6⟩, ⟨11, 2⟩]

/-- Witness for C1 at the spec's worked example; the minimum is 2. -/
theorem calculateMaxBookableSeats_eq_min_witness :
    (calculateMaxBookableSeats 0 exampleAvailability ∈ seatValues 0 exampleAvailability ∧
      ∀ v ∈ seatValues 0 exampleAvailability,
        calculateMaxBookableSeats 0 exampleAvailability ≤ v) ∧
    calculateMaxBookableSeats 0 exampleAvailability = 2 :=
  ⟨calculateMaxBookableSeats_eq_min 0 exampleAvailability
      (by decide) (by decide) (by decide),
    by decide⟩

/-- The value stored per time label by `fetchAvailability` (both the batch
path and the per-date path): `available`, `availableSeats`, `maxCapacity`. -/
structure AvailabilityEntry where
  available : Bool
  availableSeats : Int
  maxCapacity : Nat

/-- A calendar cell of the `TimeSlot` interface as built by
`initializeSchedule` / `refreshSchedule`; the seat fields are optional in
the source. -/
structure TimeSlot where
  time : String
  available : Bool
  availableSeats : Option Int
  maxCapacity : Option Nat

/-- Embeds the per-date row built by `fetchAvailability` when slot data is
present: for each generated time label (with its index), the entry
`{available: m > 0, availableSeats: m, maxCapacity: 6}` with
`m = calculateMaxBookableSeats index availableSlots`. -/
def availabilityRow (availableSlots : List AvailableSlot) :
    List (String × AvailabilityEntry) :=
  generateTimeSlots.enum.map (fun p =>
    let maxAvailableFor3Hours := calculateMaxBookableSeats p.1 availableSlots
    (p.2, ⟨decide (maxAvailableFor3Hours > 0), maxAvailableFor3Hours, 6⟩))

/-- Embeds the per-date row written by the `catch` branch of the individual
fetch: every time label mapped to
`{available: false, availableSeats: 0, maxCapacity: 6}`. -/
def failedDateRow : List (String × AvailabilityEntry) :=
  generateTimeSlots.map (fun timeString => (timeString, ⟨false, 0, 6⟩))

/-- The availability data produced by the top-level `catch` of
`fetchAvailability`: the empty object, in which every per-time lookup is
undefined. -/
def emptyAvailabilityData : List (String × AvailabilityEntry) := []

/-- Embeds the cell construction of `initializeSchedule` /
`refreshSchedule`: `available := slotData?.available !== false` (true when
the lookup is undefined), seat fields passed through optionally. -/
def buildScheduleSlot (row : List (String × AvailabilityEntry))
    (time : String) : TimeSlot :=
  let slotData := row.lookup time
  { time := time
    available := match slotData with
      | some d => d.available
      | none => true
    availableSeats := slotData.map AvailabilityEntry.availableSeats
    maxCapacity := slotData.map AvailabilityEntry.maxCapacity }

/-- Embeds the slot list of one `DaySchedule`: the cell builder mapped over
the generated time labels. -/
def scheduleSlots (row : List (String × AvailabilityEntry)) : List TimeSlot :=
  generateTimeSlots.map (buildScheduleSlot row)

/-- Mapping a function pairwise over a list relates it to itself. -/
theorem forall₂_map_self {α β : Type} (f : α → β) (R : β → α → Prop) :
    ∀ l : List α, (∀ a ∈ l, R (f a) a) → List.Forall₂ R (l.map f) l := by
  intro l
  induction l with
  | nil => intro _; exact List.Forall₂.nil
  | cons x xs ih =>
    intro h
    exact List.Forall₂.cons (h x (List.mem_cons_self x xs))
      (ih (fun a ha => h a (List.mem_cons_of_mem _ ha)))

/-- Mapping over an enumerated list relates the images to the elements when
the relation holds at every index. -/
theorem forall₂_enumFrom_map {α β : Type} (f : Nat × α → β) (R : β → α → Prop)
    (h : ∀ (n : Nat) (a : α), R (f (n, a)) a) :
    ∀ (l : List α) (n : Nat), List.Forall₂ R ((l.enumFrom n).map f) l := by
  intro l
  induction l with
  | nil => intro n; exact List.Forall₂.nil
  | cons x xs ih =>
    intro n
    simp only [List.enumFrom, List.map_cons]
    exact List.Forall₂.cons (h n x) (ih (n + 1))

/-- Looking up a member key in a constant-valued association list built over
a key list yields that constant. -/
theorem lookup_const_entry (e : AvailabilityEntry) :
    ∀ (l : List String) (t : String), t ∈ l →
      List.lookup t (l.map (fun s => (s, e))) = some e := by
  intro l
  induction l with
  | nil => intro t ht; simp at ht
  | cons x xs ih =>
    intro t ht
    simp only [List.map_cons, List.lookup]
    cases hbeq : t == x with
    | true => rfl
    | false =>
      rcases List.mem_cons.mp ht with heq | hmem
      · subst heq; simp at hbeq
      · exact ih t hmem

/-- C5: for any successfully fetched slot data, the produced day row has
exactly 40 entries, one per generated time label in order, each with
`maxCapacity = 6` and `available` true exactly when `availableSeats` is
positive. -/
theorem availabilityRow_shape (availableSlots : List AvailableSlot) :
    (availabilityRow availableSlots).length = 40 ∧
    List.Forall₂ (fun p t => p.1 = t ∧ p.2.maxCapacity = 6 ∧
        (p.2.available = true ↔ 0 < p.2.availableSeats))
      (availabilityRow availableSlots) generateTimeSlots := by
  constructor
  · have h40 : generateTimeSlots.length = 40 := by decide
    simpa [availabilityRow] using h40
  · exact forall₂_enumFrom_map _ _
      (fun n a => ⟨rfl, rfl, decide_eq_true_iff⟩) generateTimeSlots 0

/-- C6: when the batch fetch and a date's individual fetch both fail, the
date's schedule row has 40 cells, each marked unavailable with 0 available
seats and capacity 6. -/
theorem failedDate_slots_unavailable :
    (scheduleSlots failedDateRow).length = 40 ∧
    List.Forall₂ (fun c t => c.time = t ∧ c.available = false ∧
        c.availableSeats = some 0 ∧ c.maxCapacity = some 6)
      (scheduleSlots failedDateRow) generateTimeSlots := by
  constructor
  · have h40 : generateTimeSlots.length = 40 := by decide
    simpa [scheduleSlots] using h40
  · apply forall₂_map_self
    intro t ht
    have hlook : List.lookup t failedDateRow = some ⟨false, 0, 6⟩ :=
      lookup_const_entry _ generateTimeSlots t ht
    exact ⟨rfl, by simp [buildScheduleSlot, hlook],
      by simp [buildScheduleSlot, hlook], by simp [buildScheduleSlot, hlook]⟩

/-- C8: when `fetchAvailability` returns the empty map, every schedule cell
of every date is marked available (the absent-lookup default
`slotData?.available !== false` is true), so total fetch failure fails
open. -/
theorem emptyAvailability_failsOpen :
    (scheduleSlots emptyAvailabilityData).length = 40 ∧
    List.Forall₂ (fun c t => c.time = t ∧ c.available = true ∧
        c.availableSeats = none ∧ c.maxCapacity = none)
      (scheduleSlots emptyAvailabilityData) generateTimeSlots := by
  constructor
  · have h40 : generateTimeSlots.length = 40 := by decide
    simpa [scheduleSlots] using h40
  · apply forall₂_map_self
    intro t ht
    exact ⟨rfl, by simp [buildScheduleSlot, emptyAvailabilityData, List.lookup],
      by simp [buildScheduleSlot, emptyAvailabilityData, List.lookup],
      by simp [buildScheduleSlot, emptyAvailabilityData, List.lookup]⟩
